import Mathlib

/-!
Verification development for the Wikidot page fetcher (`main.py`).

The program is embedded shallowly:

* Python strings are modelled as `String` / `List Char`.  `str.strip` is
  modelled by `pyStrip` over the whitespace predicate `pyIsSpace` (the ASCII
  fragment of Python's Unicode whitespace; none of the characters the program
  treats specially — `:`, the single quote, digits — is whitespace, which is
  all the proofs use).
* `str.isdigit` is modelled by `pyIsDigitStr`: non-empty, and every character
  is either an ASCII decimal digit or one of the explicitly listed Unicode
  characters with Numeric_Type=Digit that are *not* decimal digits
  (superscript and subscript digits, e.g. '²').  Python's `isdigit` accepts
  those, while `int()` rejects them.  Other non-ASCII numeric characters are
  not modelled (treated as non-digits).
* `int(s)` is modelled by `pyInt?` on the same fragment: optional surrounding
  whitespace, an optional sign, then a non-empty run of ASCII decimal digits
  (underscore separators and non-ASCII decimal digits are not modelled).
* Python dicts are modelled as insertion-ordered association lists; assignment
  `d[k] = v` is `dinsert` (in-place update of an existing key, else append).
* `datetime.fromtimestamp(ts).strftime('%Y-%m-%d %H:%M:%S')` is a platform
  operation (local time zone); it is modelled by an oracle `fmt : Int → FtRes`
  which may succeed, raise `ValueError`/`TypeError` (the exceptions caught by
  `timestamp_to_date`), or raise anything else (e.g. `OverflowError`, which
  that handler does not catch).
* The wikidot library is an external collaborator; it is modelled by a
  `SiteOracle` whose operations return `Except PyErr _`, `Except.error`
  standing for a raised exception.
-/

/-- Whitespace predicate used by the model of Python's `str.strip` (ASCII
fragment of Python's Unicode whitespace). -/
def pyIsSpace (c : Char) : Bool :=
  c = ' ' || c = '\t' || c = '\n' || c = '\r' || c = '\x0b' || c = '\x0c'

/-- Model of Python `str.lstrip()` on character lists. -/
def lstrip (l : List Char) : List Char := l.dropWhile pyIsSpace

/-- Model of Python `str.rstrip()` on character lists. -/
def rstrip (l : List Char) : List Char := (l.reverse.dropWhile pyIsSpace).reverse

/-- Model of Python `str.strip()` on character lists. -/
def pyStrip (l : List Char) : List Char := rstrip (lstrip l)

/-- Model of Python `str.split('\n')`: split on every newline, keeping empty
pieces (`''.split('\n') == ['']`). -/
def splitNl : List Char → List (List Char)
  | [] => [[]]
  | c :: cs =>
    if c = '\n' then [] :: splitNl cs
    else
      match splitNl cs with
      | [] => [[c]]
      | h :: t => (c :: h) :: t

/-- Model of Python `line.split(':', 1)` guarded by `':' in line`:
`none` when the line has no colon, otherwise the text before and after the
first colon. -/
def splitColon : List Char → Option (List Char × List Char)
  | [] => none
  | c :: cs =>
    if c = ':' then some ([], cs)
    else (splitColon cs).map (fun p => (c :: p.1, p.2))

/-- The single-quote character (code point 39). -/
def quoteChar : Char := Char.ofNat 39

/-- Source lines 73-74: `if value.startswith("'") and value.endswith("'"):
value = value[1:-1]`.  Note there is no minimum-length check. -/
def stripQuotes (v : List Char) : List Char :=
  if v.head? = some quoteChar ∧ v.getLast? = some quoteChar then (v.drop 1).dropLast
  else v

/-- Per-line processing of `_parse_key_value_content` (source lines 67-76):
`none` for a line without a colon; otherwise the stripped key and the
stripped, quote-stripped value. -/
def processLine (line : List Char) : Option (String × String) :=
  match splitColon line with
  | none => none
  | some kv => some (String.mk (pyStrip kv.1), String.mk (stripQuotes (pyStrip kv.2)))

/-- Membership of a key in a Python-dict model. -/
def dmem {β : Type} : List (String × β) → String → Bool
  | [], _ => false
  | p :: ps, k => p.1 = k || dmem ps k

/-- In-place update helper: replace the value of every binding of `k`. -/
def dreplace {β : Type} : List (String × β) → String → β → List (String × β)
  | [], _, _ => []
  | p :: ps, k, v => (if p.1 = k then (k, v) else p) :: dreplace ps k v

/-- Model of Python dict assignment `d[k] = v`: update in place when the key
exists (keeping its position), otherwise append at the end. -/
def dinsert {β : Type} (d : List (String × β)) (k : String) (v : β) : List (String × β) :=
  if dmem d k then dreplace d k v else d ++ [(k, v)]

/-- Model of Python dict lookup `d[k]` / `d.get(k)`. -/
def dlookup {β : Type} : List (String × β) → String → Option β
  | [], _ => none
  | p :: ps, k => if p.1 = k then some p.2 else dlookup ps k

/-- One iteration of the parser loop: insert the line's entry, if any. -/
def insLine (d : List (String × String)) (line : List Char) : List (String × String) :=
  match processLine line with
  | none => d
  | some kv => dinsert d kv.1 kv.2

/-- `_parse_key_value_content` (source lines 52-78).  The source takes a
string that may also be `None` and first checks falsiness (`if not content`),
so the model's input is an `Option String`. -/
def parseKeyValueContent (content : Option String) : List (String × String) :=
  match content with
  | none => []
  | some s =>
    if s = "" then []
    else (splitNl (pyStrip s.data)).foldl insLine []

/-- The key/value pairs successively produced by a list of lines. -/
def lineEntries (ls : List (List Char)) : List (String × String) :=
  ls.filterMap processLine

/-- The value of the *last* entry for `k` in a sequence of produced entries
(last-write-wins reading of the spec). -/
def lastValue (es : List (String × String)) (k : String) : Option String :=
  es.foldl (fun a kv => if kv.1 = k then some kv.2 else a) none

/-- Unicode characters with Numeric_Type=Digit that are not decimal digits:
superscript and subscript digits.  Python's `str.isdigit` returns `True` on
them while `int()` rejects them.  (Other non-ASCII numeric characters are not
modelled and count as non-digits here.) -/
def digitExtraChars : List Char :=
  ['¹', '²', '³', '⁰', '⁴', '⁵', '⁶', '⁷', '⁸', '⁹',
   '₀', '₁', '₂', '₃', '₄', '₅', '₆', '₇', '₈', '₉']

/-- Per-character model of Python's `str.isdigit`. -/
def pyIsDigitChar (c : Char) : Bool :=
  c.isDigit || digitExtraChars.contains c

/-- Model of Python `s.isdigit()`: non-empty and every character a digit. -/
def pyIsDigitStr (s : String) : Bool :=
  !s.data.isEmpty && s.data.all pyIsDigitChar

/-- A non-empty run of ASCII decimal digits (the strings `int()` accepts
without sign or whitespace). -/
def allDecimalStr (s : String) : Bool :=
  !s.data.isEmpty && s.data.all Char.isDigit

/-- Numeric value of a run of ASCII decimal digits. -/
def decValN (l : List Char) : Nat :=
  l.foldl (fun a c => a * 10 + (c.toNat - 48)) 0

/-- Model of Python `int(s)` on the modelled fragment: optional surrounding
whitespace, optional sign, then a non-empty run of ASCII decimal digits;
`none` models a raised `ValueError`. -/
def pyInt? (s : String) : Option Int :=
  if pyStrip s.data = [] then none
  else if (pyStrip s.data).head? = some '-' then
    (if (pyStrip s.data).tail ≠ [] ∧ (pyStrip s.data).tail.all Char.isDigit then
      some (-(decValN (pyStrip s.data).tail : Int)) else none)
  else if (pyStrip s.data).head? = some '+' then
    (if (pyStrip s.data).tail ≠ [] ∧ (pyStrip s.data).tail.all Char.isDigit then
      some ((decValN (pyStrip s.data).tail : Int)) else none)
  else if (pyStrip s.data).all Char.isDigit then some ((decValN (pyStrip s.data) : Int))
  else none

/-- Possible outcomes of the platform operation
`datetime.fromtimestamp(ts).strftime('%Y-%m-%d %H:%M:%S')`, which depends on
the local time zone and the platform date range and is therefore an oracle of
the model: success, a raised `ValueError`/`TypeError` (the two exception
classes `timestamp_to_date` catches), or any other raised exception
(e.g. `OverflowError` on timestamps not fitting the platform time type),
which that handler does not catch. -/
inductive FtRes : Type
  | ok (s : String)
  | valueError
  | uncaught
deriving DecidableEq

/-- Exceptions of the model. -/
inductive PyErr : Type
  | attributeError
  | uncaught
  | generic
deriving DecidableEq

deriving instance DecidableEq for Except

/-- `timestamp_to_date` (source lines 89-94): `try: ts = int(ts_str); return
datetime.fromtimestamp(ts).strftime(...) except (ValueError, TypeError):
return ts_str`.  An `Except.error` is an exception that escapes it. -/
def timestampToDate (fmt : Int → FtRes) (s : String) : Except PyErr String :=
  match pyInt? s with
  | none => Except.ok s
  | some ts =>
    match fmt ts with
    | FtRes.ok t => Except.ok t
    | FtRes.valueError => Except.ok s
    | FtRes.uncaught => Except.error PyErr.uncaught

/-- The `_page_info` metadata record built in `fetch_page` (source lines
135-143).  `created_at` holds `page.created_at.isoformat()` when the page has
a creation time, `created_by` the creator name when present. -/
structure PageInfo : Type where
  fullname : String
  name : String
  title : String
  category : String
  created_at : Option String
  created_by : Option String
  size : Int
deriving DecidableEq

/-- Values of the parsed-content dict: content lines give strings, the
reserved `_page_info` key holds the metadata record. -/
inductive Val : Type
  | str (s : String)
  | info (i : PageInfo)
deriving DecidableEq

/-- The heterogeneous dict `fetch_page` works with. -/
abbrev PyDict := List (String × Val)

/-- Injection of a string-to-string mapping into the dict model. -/
def strD (d : List (String × String)) : PyDict :=
  d.map (fun p => (p.1, Val.str p.2))

/-- The fixed field list of `_convert_timestamps` (source line 97). -/
def timeFields : List String := ["date-from", "date-to", "created_at", "updated_at"]

/-- The derived keys the enricher can write. -/
def readableKeys : List String := timeFields.map (fun f => f ++ "_readable")

/-- One iteration of the `for field in time_fields` loop (source lines
98-100): `if field in result and result[field].isdigit():
result[field + '_readable'] = timestamp_to_date(result[field])`.
Calling `.isdigit()` on a non-string value would raise `AttributeError`;
an uncaught exception from `timestamp_to_date` propagates. -/
def stepField (fmt : Int → FtRes) (d : PyDict) (f : String) : Except PyErr PyDict :=
  match dlookup d f with
  | none => Except.ok d
  | some (Val.info _) => Except.error PyErr.attributeError
  | some (Val.str s) =>
    if pyIsDigitStr s then
      match timestampToDate fmt s with
      | Except.error e => Except.error e
      | Except.ok t => Except.ok (dinsert d (f ++ "_readable") (Val.str t))
    else Except.ok d

/-- `_convert_timestamps` (source lines 81-102): copy the input and run the
loop body once for each of the four fixed fields, in order. -/
def convertTimestamps (fmt : Int → FtRes) (data : PyDict) : Except PyErr PyDict :=
  match stepField fmt data "date-from" with
  | Except.error e => Except.error e
  | Except.ok r1 =>
    match stepField fmt r1 "date-to" with
    | Except.error e => Except.error e
    | Except.ok r2 =>
      match stepField fmt r2 "created_at" with
      | Except.error e => Except.error e
      | Except.ok r3 => stepField fmt r3 "updated_at"

/-- The `page.source` object: `wiki_text = none` models
`hasattr(page.source, 'wiki_text')` being false. -/
structure SrcObj : Type where
  wiki_text : Option String

/-- A page object returned by `site.page.get`: reading `page.source` or the
metadata attributes (`fullname`, `name`, `title`, `category`, `created_at`,
`created_by`, `size`) may itself raise. -/
structure PageObj : Type where
  source : Except PyErr SrcObj
  meta : Except PyErr PageInfo

/-- The external wikidot library ("Site Client"): `wikidot.Client(...)`
construction, `client.site.get(site_name)`, and `site.page.get(name)`.
`Except.error` models a raised exception. -/
structure SiteOracle : Type where
  clientNew : Except PyErr Unit
  siteGet : Except PyErr Unit
  getPage : String → Except PyErr PageObj

/-- Resource events of one scope: a wikidot session being created by
`wikidot.Client(...)`, and `client.close()` being called. -/
inductive REvent : Type
  | created
  | closed
deriving DecidableEq

/-- Outcome of one call of `login` (source lines 36-50): the returned
boolean, whether `self.client` is set afterwards, and the resource events. -/
structure LoginOut : Type where
  ret : Bool
  clientSet : Bool
  events : List REvent
deriving DecidableEq

/-- `login` (source lines 36-50): construct the client, then look up the
site; on any exception the handler sets `self.client = None` and
`self.site = None` and returns `False`.  Note that when the client was
constructed but `site.get` raised, the session object is discarded without
`close()`. -/
def loginRun (o : SiteOracle) : LoginOut :=
  match o.clientNew with
  | Except.error _ => ⟨false, false, []⟩
  | Except.ok _ =>
    match o.siteGet with
    | Except.error _ => ⟨false, false, [REvent.created]⟩
    | Except.ok _ => ⟨true, true, [REvent.created]⟩

/-- The context-managed scope (`__enter__` at source lines 26-29 calls
`login`; `__exit__` at lines 31-34 calls `self.client.close()` when
`self.client` is set): the resource events of entering and leaving the
scope. -/
def scopeRun (o : SiteOracle) : List REvent :=
  (loginRun o).events ++ (if (loginRun o).clientSet then [REvent.closed] else [])

/-- The body of the `try` block of `fetch_page` (source lines 114-153),
together with the guards before it that return `None`: get the page, check
and read `page.source.wiki_text`, parse, attach `_page_info`, convert
timestamps.  `Except.error` is an exception raised inside the `try`. -/
def fetchPageTry (o : SiteOracle) (fmt : Int → FtRes) (pageName : String) :
    Except PyErr (Option PyDict) :=
  match o.getPage ("reserve:" ++ pageName) with
  | Except.error e => Except.error e
  | Except.ok page =>
    match page.source with
    | Except.error e => Except.error e
    | Except.ok src =>
      match src.wiki_text with
      | none => Except.ok none
      | some raw =>
        if raw = "" then Except.ok none
        else
          match page.meta with
          | Except.error e => Except.error e
          | Except.ok info =>
            match convertTimestamps fmt
                (dinsert (strD (parseKeyValueContent (some raw)))
                  "_page_info" (Val.info info)) with
            | Except.error e => Except.error e
            | Except.ok finalData => Except.ok (some finalData)

/-- `fetch_page` (source lines 104-153).  `hasSite` models whether
`self.site` is already set; when it is not, `login` is attempted once and a
failure returns `None`.  The `except Exception` handler at lines 151-153
turns every exception raised in the body into `None`. -/
def fetchPage (o : SiteOracle) (fmt : Int → FtRes) (hasSite : Bool)
    (pageName : String) : Option PyDict :=
  if hasSite || (loginRun o).ret then
    match fetchPageTry o fmt pageName with
    | Except.ok r => r
    | Except.error _ => none
  else none

theorem dlookup_dreplace_ne {β : Type} (d : List (String × β)) (k : String) (v : β)
    (g : String) (h : g ≠ k) : dlookup (dreplace d k v) g = dlookup d g := by
  induction d with
  | nil => rfl
  | cons p ps ih =>
    by_cases hp : p.1 = k
    · simp only [dreplace, if_pos hp, dlookup]
      rw [if_neg (fun hh => h hh.symm), if_neg (hp ▸ fun hh => h hh.symm), ih]
    · simp only [dreplace, if_neg hp, dlookup, ih]

theorem dlookup_dreplace_self {β : Type} (d : List (String × β)) (k : String) (v : β)
    (hmem : dmem d k = true) : dlookup (dreplace d k v) k = some v := by
  induction d with
  | nil => simp [dmem] at hmem
  | cons p ps ih =>
    by_cases hp : p.1 = k
    · simp [dreplace, if_pos hp, dlookup]
    · simp only [dmem, hp, decide_eq_true_eq, Bool.false_or, decide_eq_false_iff_not,
        not_false_eq_true, Bool.false_or] at hmem
      simp only [dreplace, if_neg hp, dlookup, if_neg hp]
      exact ih (by simpa using hmem)

theorem dlookup_append_single_self {β : Type} (d : List (String × β)) (k : String) (v : β)
    (hmem : dmem d k = false) : dlookup (d ++ [(k, v)]) k = some v := by
  induction d with
  | nil => simp [dlookup]
  | cons p ps ih =>
    simp only [dmem, Bool.or_eq_false_iff, decide_eq_false_iff_not] at hmem
    simp only [List.cons_append, dlookup, if_neg hmem.1]
    exact ih hmem.2

theorem dlookup_append_single_ne {β : Type} (d : List (String × β)) (k : String) (v : β)
    (g : String) (h : g ≠ k) : dlookup (d ++ [(k, v)]) g = dlookup d g := by
  induction d with
  | nil =>
    simp only [List.nil_append, dlookup]
    rw [if_neg (fun hh : k = g => h hh.symm)]
  | cons p ps ih =>
    by_cases hpg : p.1 = g <;> simp [dlookup, hpg, ih]

theorem dlookup_dinsert_self {β : Type} (d : List (String × β)) (k : String) (v : β) :
    dlookup (dinsert d k v) k = some v := by
  unfold dinsert
  by_cases h : dmem d k = true
  · rw [if_pos h]; exact dlookup_dreplace_self d k v h
  · rw [if_neg h]; exact dlookup_append_single_self d k v (by simpa using h)

theorem dlookup_dinsert_ne {β : Type} (d : List (String × β)) (k : String) (v : β)
    (g : String) (h : g ≠ k) : dlookup (dinsert d k v) g = dlookup d g := by
  unfold dinsert
  by_cases hm : dmem d k = true
  · rw [if_pos hm]; exact dlookup_dreplace_ne d k v g h
  · rw [if_neg hm]; exact dlookup_append_single_ne d k v g h

theorem isSome_dlookup_dinsert {β : Type} (d : List (String × β)) (k : String) (v : β)
    (g : String) (h : (dlookup d g).isSome) : (dlookup (dinsert d k v) g).isSome := by
  by_cases hg : g = k
  · subst hg; rw [dlookup_dinsert_self]; rfl
  · rw [dlookup_dinsert_ne d k v g hg]; exact h

theorem dlookup_strD (d : List (String × String)) (k : String) :
    dlookup (strD d) k = (dlookup d k).map Val.str := by
  induction d with
  | nil => rfl
  | cons p ps ih =>
    simp only [strD, List.map_cons, dlookup]
    by_cases hp : p.1 = k
    · simp [hp]
    · rw [if_neg hp, if_neg hp]
      exact ih

theorem stepField_lookup_ne (fmt : Int → FtRes) (d : PyDict) (f : String) (d' : PyDict)
    (h : stepField fmt d f = Except.ok d') (g : String) (hg : g ≠ f ++ "_readable") :
    dlookup d' g = dlookup d g := by
  unfold stepField at h
  split at h
  · injection h with hh; subst hh; rfl
  · cases h
  · split at h
    · split at h
      · cases h
      · injection h with hh; subst hh; exact dlookup_dinsert_ne _ _ _ _ hg
    · injection h with hh; subst hh; rfl

theorem stepField_keys_mono (fmt : Int → FtRes) (d : PyDict) (f : String) (d' : PyDict)
    (h : stepField fmt d f = Except.ok d') (g : String) (hk : (dlookup d g).isSome) :
    (dlookup d' g).isSome := by
  unfold stepField at h
  split at h
  · injection h with hh; subst hh; exact hk
  · cases h
  · split at h
    · split at h
      · cases h
      · injection h with hh; subst hh; exact isSome_dlookup_dinsert _ _ _ _ hk
    · injection h with hh; subst hh; exact hk

theorem stepField_hit (fmt : Int → FtRes) (d : PyDict) (f s : String) (d' : PyDict)
    (hd : dlookup d f = some (Val.str s)) (hdig : pyIsDigitStr s = true)
    (h : stepField fmt d f = Except.ok d') :
    ∃ t, timestampToDate fmt s = Except.ok t ∧ d' = dinsert d (f ++ "_readable") (Val.str t) := by
  unfold stepField at h
  rw [hd] at h
  simp only [hdig, if_true] at h
  cases hts : timestampToDate fmt s with
  | error e => rw [hts] at h; cases h
  | ok t => rw [hts] at h; injection h with hh; exact ⟨t, rfl, hh.symm⟩

theorem stepField_miss_none (fmt : Int → FtRes) (d : PyDict) (f : String)
    (hd : dlookup d f = none) : stepField fmt d f = Except.ok d := by
  unfold stepField; rw [hd]

theorem stepField_miss_nondigit (fmt : Int → FtRes) (d : PyDict) (f s : String)
    (hd : dlookup d f = some (Val.str s)) (hdig : pyIsDigitStr s = false) :
    stepField fmt d f = Except.ok d := by
  unfold stepField; rw [hd]; simp [hdig]

theorem stepField_err (fmt : Int → FtRes) (d : PyDict) (f s : String) (e : PyErr)
    (hd : dlookup d f = some (Val.str s)) (hdig : pyIsDigitStr s = true)
    (hts : timestampToDate fmt s = Except.error e) :
    stepField fmt d f = Except.error e := by
  unfold stepField; rw [hd]; simp [hdig, hts]

theorem convert_ok_steps (fmt : Int → FtRes) (data out : PyDict)
    (h : convertTimestamps fmt data = Except.ok out) :
    ∃ r1 r2 r3, stepField fmt data "date-from" = Except.ok r1 ∧
      stepField fmt r1 "date-to" = Except.ok r2 ∧
      stepField fmt r2 "created_at" = Except.ok r3 ∧
      stepField fmt r3 "updated_at" = Except.ok out := by
  unfold convertTimestamps at h
  split at h
  next e heq => cases h
  next r1 heq1 =>
    split at h
    next e heq => cases h
    next r2 heq2 =>
      split at h
      next e heq => cases h
      next r3 heq3 => exact ⟨r1, r2, r3, heq1, heq2, heq3, h⟩

theorem convert_lookup_ne (fmt : Int → FtRes) (data out : PyDict)
    (h : convertTimestamps fmt data = Except.ok out) (g : String)
    (hg : ∀ f ∈ timeFields, g ≠ f ++ "_readable") : dlookup out g = dlookup data g := by
  obtain ⟨r1, r2, r3, h1, h2, h3, h4⟩ := convert_ok_steps fmt data out h
  rw [stepField_lookup_ne fmt r3 _ out h4 g (hg "updated_at" (by simp [timeFields])),
    stepField_lookup_ne fmt r2 _ r3 h3 g (hg "created_at" (by simp [timeFields])),
    stepField_lookup_ne fmt r1 _ r2 h2 g (hg "date-to" (by simp [timeFields])),
    stepField_lookup_ne fmt data _ r1 h1 g (hg "date-from" (by simp [timeFields]))]

theorem convert_keys_mono (fmt : Int → FtRes) (data out : PyDict)
    (h : convertTimestamps fmt data = Except.ok out) (g : String)
    (hk : (dlookup data g).isSome) : (dlookup out g).isSome := by
  obtain ⟨r1, r2, r3, h1, h2, h3, h4⟩ := convert_ok_steps fmt data out h
  exact stepField_keys_mono fmt r3 _ out h4 g
    (stepField_keys_mono fmt r2 _ r3 h3 g
      (stepField_keys_mono fmt r1 _ r2 h2 g
        (stepField_keys_mono fmt data _ r1 h1 g hk)))

theorem convert_hit (fmt : Int → FtRes) (data out : PyDict) (f s : String)
    (hf : f ∈ timeFields) (hd : dlookup data f = some (Val.str s))
    (hdig : pyIsDigitStr s = true) (h : convertTimestamps fmt data = Except.ok out) :
    ∃ t, timestampToDate fmt s = Except.ok t ∧
      dlookup out (f ++ "_readable") = some (Val.str t) := by
  obtain ⟨r1, r2, r3, h1, h2, h3, h4⟩ := convert_ok_steps fmt data out h
  simp only [timeFields, List.mem_cons, List.not_mem_nil, or_false] at hf
  rcases hf with rfl | rfl | rfl | rfl
  · obtain ⟨t, hts, hr1⟩ := stepField_hit fmt data _ s r1 hd hdig h1
    refine ⟨t, hts, ?_⟩
    rw [stepField_lookup_ne fmt r3 "updated_at" out h4 _ (by decide),
      stepField_lookup_ne fmt r2 "created_at" r3 h3 _ (by decide),
      stepField_lookup_ne fmt r1 "date-to" r2 h2 _ (by decide),
      hr1, dlookup_dinsert_self]
  · have e1 := stepField_lookup_ne fmt data "date-from" r1 h1 "date-to" (by decide)
    obtain ⟨t, hts, hr2⟩ := stepField_hit fmt r1 _ s r2 (e1.trans hd) hdig h2
    refine ⟨t, hts, ?_⟩
    rw [stepField_lookup_ne fmt r3 "updated_at" out h4 _ (by decide),
      stepField_lookup_ne fmt r2 "created_at" r3 h3 _ (by decide),
      hr2, dlookup_dinsert_self]
  · have e1 := stepField_lookup_ne fmt data "date-from" r1 h1 "created_at" (by decide)
    have e2 := stepField_lookup_ne fmt r1 "date-to" r2 h2 "created_at" (by decide)
    obtain ⟨t, hts, hr3⟩ := stepField_hit fmt r2 _ s r3 (e2.trans (e1.trans hd)) hdig h3
    refine ⟨t, hts, ?_⟩
    rw [stepField_lookup_ne fmt r3 "updated_at" out h4 _ (by decide),
      hr3, dlookup_dinsert_self]
  · have e1 := stepField_lookup_ne fmt data "date-from" r1 h1 "updated_at" (by decide)
    have e2 := stepField_lookup_ne fmt r1 "date-to" r2 h2 "updated_at" (by decide)
    have e3 := stepField_lookup_ne fmt r2 "created_at" r3 h3 "updated_at" (by decide)
    obtain ⟨t, hts, hout⟩ :=
      stepField_hit fmt r3 _ s out (e3.trans (e2.trans (e1.trans hd))) hdig h4
    refine ⟨t, hts, ?_⟩
    rw [hout, dlookup_dinsert_self]

theorem convert_miss (fmt : Int → FtRes) (data out : PyDict) (f : String)
    (hf : f ∈ timeFields)
    (hmiss : dlookup data f = none ∨
      ∃ s, dlookup data f = some (Val.str s) ∧ pyIsDigitStr s = false)
    (h : convertTimestamps fmt data = Except.ok out) :
    dlookup out (f ++ "_readable") = dlookup data (f ++ "_readable") := by
  obtain ⟨r1, r2, r3, h1, h2, h3, h4⟩ := convert_ok_steps fmt data out h
  simp only [timeFields, List.mem_cons, List.not_mem_nil, or_false] at hf
  rcases hf with rfl | rfl | rfl | rfl
  · have hid : stepField fmt data "date-from" = Except.ok data := by
      rcases hmiss with hn | ⟨s, hs, hdig⟩
      · exact stepField_miss_none fmt data _ hn
      · exact stepField_miss_nondigit fmt data _ s hs hdig
    have hr1 : r1 = data := by
      have hh := hid.symm.trans h1
      injection hh with hh'
      exact hh'.symm
    rw [stepField_lookup_ne fmt r3 "updated_at" out h4 _ (by decide),
      stepField_lookup_ne fmt r2 "created_at" r3 h3 _ (by decide),
      stepField_lookup_ne fmt r1 "date-to" r2 h2 _ (by decide), hr1]
  · have e1 := stepField_lookup_ne fmt data "date-from" r1 h1 "date-to" (by decide)
    have hid : stepField fmt r1 "date-to" = Except.ok r1 := by
      rcases hmiss with hn | ⟨s, hs, hdig⟩
      · exact stepField_miss_none fmt r1 _ (e1.trans hn)
      · exact stepField_miss_nondigit fmt r1 _ s (e1.trans hs) hdig
    have hr2 : r2 = r1 := by
      have hh := hid.symm.trans h2
      injection hh with hh'
      exact hh'.symm
    rw [stepField_lookup_ne fmt r3 "updated_at" out h4 _ (by decide),
      stepField_lookup_ne fmt r2 "created_at" r3 h3 _ (by decide), hr2,
      stepField_lookup_ne fmt data "date-from" r1 h1 _ (by decide)]
  · have e1 := stepField_lookup_ne fmt data "date-from" r1 h1 "created_at" (by decide)
    have e2 := stepField_lookup_ne fmt r1 "date-to" r2 h2 "created_at" (by decide)
    have hid : stepField fmt r2 "created_at" = Except.ok r2 := by
      rcases hmiss with hn | ⟨s, hs, hdig⟩
      · exact stepField_miss_none fmt r2 _ (e2.trans (e1.trans hn))
      · exact stepField_miss_nondigit fmt r2 _ s (e2.trans (e1.trans hs)) hdig
    have hr3 : r3 = r2 := by
      have hh := hid.symm.trans h3
      injection hh with hh'
      exact hh'.symm
    rw [stepField_lookup_ne fmt r3 "updated_at" out h4 _ (by decide), hr3,
      stepField_lookup_ne fmt r1 "date-to" r2 h2 _ (by decide),
      stepField_lookup_ne fmt data "date-from" r1 h1 _ (by decide)]
  · have e1 := stepField_lookup_ne fmt data "date-from" r1 h1 "updated_at" (by decide)
    have e2 := stepField_lookup_ne fmt r1 "date-to" r2 h2 "updated_at" (by decide)
    have e3 := stepField_lookup_ne fmt r2 "created_at" r3 h3 "updated_at" (by decide)
    have hid : stepField fmt r3 "updated_at" = Except.ok r3 := by
      rcases hmiss with hn | ⟨s, hs, hdig⟩
      · exact stepField_miss_none fmt r3 _ (e3.trans (e2.trans (e1.trans hn)))
      · exact stepField_miss_nondigit fmt r3 _ s (e3.trans (e2.trans (e1.trans hs))) hdig
    have hout : out = r3 := by
      have hh := hid.symm.trans h4
      injection hh with hh'
      exact hh'.symm
    rw [hout, stepField_lookup_ne fmt r2 "created_at" r3 h3 _ (by decide),
      stepField_lookup_ne fmt r1 "date-to" r2 h2 _ (by decide),
      stepField_lookup_ne fmt data "date-from" r1 h1 _ (by decide)]

theorem splitNl_ne_nil (l : List Char) : splitNl l ≠ [] := by
  induction l with
  | nil => simp [splitNl]
  | cons c cs ih =>
    by_cases hc : c = '\n'
    · simp [splitNl, hc]
    · simp only [splitNl, if_neg hc]
      cases hs : splitNl cs with
      | nil => simp
      | cons h t => simp

theorem colon_not_space (c : Char) (h : pyIsSpace c = true) : c ≠ ':' := by
  intro hc
  subst hc
  exact absurd h (by decide)

theorem nl_is_space : pyIsSpace '\n' = true := by decide

theorem pyStrip_cons_space (c : Char) (h : pyIsSpace c = true) (l : List Char) :
    pyStrip (c :: l) = pyStrip l := by
  simp [pyStrip, lstrip, List.dropWhile_cons, h]

theorem rstrip_append_space (c : Char) (h : pyIsSpace c = true) (l : List Char) :
    rstrip (l ++ [c]) = rstrip l := by
  simp [rstrip, List.reverse_append, List.dropWhile_cons, h]

theorem lstrip_append (l m : List Char) :
    lstrip (l ++ m) = if lstrip l = [] then lstrip m else lstrip l ++ m := by
  induction l with
  | nil => simp [lstrip]
  | cons c cs ih =>
    by_cases h : pyIsSpace c = true
    · simpa [lstrip, List.dropWhile_cons, h] using ih
    · simp [lstrip, List.dropWhile_cons, h]

theorem pyStrip_append_space (c : Char) (h : pyIsSpace c = true) (l : List Char) :
    pyStrip (l ++ [c]) = pyStrip l := by
  unfold pyStrip
  rw [lstrip_append]
  by_cases hl : lstrip l = []
  · rw [if_pos hl, hl]
    simp [lstrip, List.dropWhile_cons, h, rstrip]
  · rw [if_neg hl]
    exact rstrip_append_space c h (lstrip l)

theorem splitColon_cons_ne (c : Char) (cs : List Char) (h : ¬c = ':') :
    splitColon (c :: cs) = (splitColon cs).map (fun p => (c :: p.1, p.2)) := by
  simp [splitColon, h]

theorem processLine_cons_space (c : Char) (h : pyIsSpace c = true) (line : List Char) :
    processLine (c :: line) = processLine line := by
  unfold processLine
  rw [splitColon_cons_ne c line (colon_not_space c h)]
  cases hs : splitColon line with
  | none => rfl
  | some kv =>
    simp only [Option.map_some']
    rw [pyStrip_cons_space c h kv.1]

theorem splitColon_append_ne (c : Char) (hc : ¬c = ':') (l : List Char) :
    splitColon (l ++ [c]) = (splitColon l).map (fun p => (p.1, p.2 ++ [c])) := by
  induction l with
  | nil => simp [splitColon, hc]
  | cons x xs ih =>
    by_cases hx : x = ':'
    · subst hx; simp [splitColon]
    · simp only [List.cons_append, splitColon, if_neg hx, List.append_eq]
      rw [ih]
      cases splitColon xs <;> simp

theorem processLine_append_space (c : Char) (h : pyIsSpace c = true) (line : List Char) :
    processLine (line ++ [c]) = processLine line := by
  unfold processLine
  rw [splitColon_append_ne c (colon_not_space c h) line]
  cases hs : splitColon line with
  | none => rfl
  | some kv =>
    simp only [Option.map_some']
    rw [pyStrip_append_space c h kv.2]

/-- Append a character to the last line of a line list. -/
def appendLast : List (List Char) → Char → List (List Char)
  | [], c => [[c]]
  | [h], c => [h ++ [c]]
  | h :: t, c => h :: appendLast t c

theorem splitNl_append_one (c : Char) (hc : ¬c = '\n') (l : List Char) :
    splitNl (l ++ [c]) = appendLast (splitNl l) c := by
  induction l with
  | nil => simp [splitNl, hc, appendLast]
  | cons x xs ih =>
    by_cases hx : x = '\n'
    · subst hx
      simp only [List.cons_append, splitNl, if_pos rfl, List.append_eq, ite_true]
      rw [ih]
      cases hs : splitNl xs with
      | nil => exact absurd hs (splitNl_ne_nil xs)
      | cons h t => rfl
    · simp only [List.cons_append, splitNl, if_neg hx, List.append_eq]
      rw [ih]
      cases hs : splitNl xs with
      | nil => exact absurd hs (splitNl_ne_nil xs)
      | cons h t => cases t <;> rfl

theorem splitNl_append_nl (l : List Char) : splitNl (l ++ ['\n']) = splitNl l ++ [[]] := by
  induction l with
  | nil => simp [splitNl]
  | cons x xs ih =>
    by_cases hx : x = '\n'
    · subst hx; simp [splitNl, ih]
    · simp only [List.cons_append, splitNl, if_neg hx, List.append_eq]
      rw [ih]
      cases hs : splitNl xs with
      | nil => exact absurd hs (splitNl_ne_nil xs)
      | cons h t => rfl

theorem lineEntries_cons (l : List Char) (ls : List (List Char)) :
    lineEntries (l :: ls) =
      match processLine l with
      | none => lineEntries ls
      | some kv => kv :: lineEntries ls := by
  simp only [lineEntries, List.filterMap_cons]
  cases processLine l <;> rfl

theorem lineEntries_appendLast (c : Char) (h : pyIsSpace c = true) (ls : List (List Char)) :
    lineEntries (appendLast ls c) = lineEntries ls := by
  induction ls with
  | nil =>
    simp [appendLast, lineEntries, List.filterMap, processLine, splitColon,
      colon_not_space c h]
  | cons hd tl ih =>
    cases tl with
    | nil =>
      rw [show appendLast [hd] c = [hd ++ [c]] from rfl, lineEntries_cons, lineEntries_cons,
        processLine_append_space c h hd]
    | cons hd2 tl2 =>
      rw [show appendLast (hd :: hd2 :: tl2) c = hd :: appendLast (hd2 :: tl2) c from rfl,
        lineEntries_cons, lineEntries_cons, ih]

theorem lineEntries_splitNl_append_space (c : Char) (h : pyIsSpace c = true) (l : List Char) :
    lineEntries (splitNl (l ++ [c])) = lineEntries (splitNl l) := by
  by_cases hc : c = '\n'
  · subst hc
    rw [splitNl_append_nl]
    simp [lineEntries, List.filterMap_append, processLine, splitColon]
  · rw [splitNl_append_one c hc, lineEntries_appendLast c h]

theorem lineEntries_splitNl_append_ws (w : List Char) (hw : ∀ c ∈ w, pyIsSpace c = true)
    (l : List Char) : lineEntries (splitNl (l ++ w)) = lineEntries (splitNl l) := by
  induction w generalizing l with
  | nil => simp
  | cons c w' ih =>
    rw [show l ++ (c :: w') = (l ++ [c]) ++ w' by simp,
      ih (fun d hd => hw d (List.mem_cons_of_mem c hd)) (l ++ [c]),
      lineEntries_splitNl_append_space c (hw c (List.mem_cons_self c w')) l]

theorem lineEntries_splitNl_cons_space (c : Char) (h : pyIsSpace c = true) (l : List Char) :
    lineEntries (splitNl (c :: l)) = lineEntries (splitNl l) := by
  by_cases hc : c = '\n'
  · subst hc
    simp [splitNl, lineEntries, List.filterMap_cons, processLine, splitColon]
  · simp only [splitNl, if_neg hc]
    cases hs : splitNl l with
    | nil => exact absurd hs (splitNl_ne_nil l)
    | cons hd tl =>
      simp only [lineEntries, List.filterMap_cons]
      rw [processLine_cons_space c h hd]

theorem lineEntries_lstrip (l : List Char) :
    lineEntries (splitNl (lstrip l)) = lineEntries (splitNl l) := by
  induction l with
  | nil => rfl
  | cons c cs ih =>
    by_cases h : pyIsSpace c = true
    · rw [show lstrip (c :: cs) = lstrip cs by simp [lstrip, List.dropWhile_cons, h], ih]
      exact (lineEntries_splitNl_cons_space c h cs).symm
    · rw [show lstrip (c :: cs) = c :: cs by simp [lstrip, List.dropWhile_cons, h]]

theorem mem_takeWhile_space (l : List Char) :
    ∀ c ∈ l.takeWhile pyIsSpace, pyIsSpace c = true := by
  induction l with
  | nil => simp
  | cons x xs ih =>
    intro c hc
    rw [List.takeWhile_cons] at hc
    by_cases hx : pyIsSpace x = true
    · rw [if_pos hx] at hc
      rcases List.mem_cons.mp hc with rfl | h
      · exact hx
      · exact ih c h
    · rw [if_neg hx] at hc
      cases hc

theorem rstrip_decomp (l : List Char) :
    ∃ w, l = rstrip l ++ w ∧ ∀ c ∈ w, pyIsSpace c = true := by
  refine ⟨(l.reverse.takeWhile pyIsSpace).reverse, ?_, ?_⟩
  · have h1 : (List.takeWhile pyIsSpace l.reverse ++ List.dropWhile pyIsSpace l.reverse).reverse
        = l := by
      rw [List.takeWhile_append_dropWhile, List.reverse_reverse]
    rw [List.reverse_append] at h1
    exact h1.symm
  · intro c hc
    rw [List.mem_reverse] at hc
    exact mem_takeWhile_space l.reverse c hc

theorem lineEntries_pyStrip (l : List Char) :
    lineEntries (splitNl (pyStrip l)) = lineEntries (splitNl l) := by
  unfold pyStrip
  obtain ⟨w, hw, hws⟩ := rstrip_decomp (lstrip l)
  calc lineEntries (splitNl (rstrip (lstrip l)))
      = lineEntries (splitNl (rstrip (lstrip l) ++ w)) :=
        (lineEntries_splitNl_append_ws w hws _).symm
    _ = lineEntries (splitNl (lstrip l)) := by rw [← hw]
    _ = lineEntries (splitNl l) := lineEntries_lstrip l

theorem foldl_insLine_eq (ls : List (List Char)) (d : List (String × String)) :
    ls.foldl insLine d = (lineEntries ls).foldl (fun x kv => dinsert x kv.1 kv.2) d := by
  induction ls generalizing d with
  | nil => rfl
  | cons l ls ih =>
    simp only [List.foldl_cons, lineEntries, List.filterMap_cons]
    cases hp : processLine l with
    | none =>
      rw [show insLine d l = d by simp [insLine, hp]]
      exact ih d
    | some kv =>
      rw [show insLine d l = dinsert d kv.1 kv.2 by simp [insLine, hp]]
      simp only [List.foldl_cons]
      exact ih _

theorem foldl_last_aux (es : List (String × String)) (k : String) (a : Option String) :
    es.foldl (fun x kv => if kv.1 = k then some kv.2 else x) a =
      match lastValue es k with
      | some v => some v
      | none => a := by
  induction es generalizing a with
  | nil => rfl
  | cons e es ih =>
    simp only [List.foldl_cons, lastValue]
    rw [ih, show (es.foldl (fun x kv => if kv.1 = k then some kv.2 else x)
      (if e.1 = k then some e.2 else none)) =
        match lastValue es k with
        | some v => some v
        | none => (if e.1 = k then some e.2 else none) from ih _]
    cases hl : lastValue es k with
    | some v => simp
    | none =>
      by_cases he : e.1 = k <;> simp [he]

theorem dlookup_foldl_dinsert (es : List (String × String)) (d : List (String × String))
    (k : String) :
    dlookup (es.foldl (fun x kv => dinsert x kv.1 kv.2) d) k =
      match lastValue es k with
      | some v => some v
      | none => dlookup d k := by
  induction es generalizing d with
  | nil => rfl
  | cons e es ih =>
    simp only [List.foldl_cons, lastValue]
    rw [ih, foldl_last_aux es k _]
    cases hl : lastValue es k with
    | some v => simp
    | none =>
      by_cases he : e.1 = k
      · simp only [he, if_pos rfl]
        rw [← he, dlookup_dinsert_self]
        simp [he]
      · simp only [if_neg he]
        rw [dlookup_dinsert_ne d e.1 e.2 k (fun hh => he hh.symm)]

theorem not_space_of_digit (c : Char) (h : c.isDigit = true) : pyIsSpace c = false := by
  cases hps : pyIsSpace c with
  | false => rfl
  | true =>
    exfalso
    unfold pyIsSpace at hps
    simp only [Bool.or_eq_true, decide_eq_true_eq] at hps
    rcases hps with ((((rfl | rfl) | rfl) | rfl) | rfl) | rfl <;> exact absurd h (by decide)

theorem dropWhile_of_not_space (l : List Char) (h : ∀ c ∈ l, pyIsSpace c = false) :
    l.dropWhile pyIsSpace = l := by
  cases l with
  | nil => rfl
  | cons x xs =>
    rw [List.dropWhile_cons]
    simp [h x (List.mem_cons_self x xs)]

theorem pyStrip_of_not_space (l : List Char) (h : ∀ c ∈ l, pyIsSpace c = false) :
    pyStrip l = l := by
  unfold pyStrip lstrip rstrip
  rw [dropWhile_of_not_space l h,
    dropWhile_of_not_space l.reverse (fun c hc => h c (List.mem_reverse.mp hc)),
    List.reverse_reverse]

theorem pyIsDigitStr_of_decimal (s : String) (h : allDecimalStr s = true) :
    pyIsDigitStr s = true := by
  unfold allDecimalStr at h
  unfold pyIsDigitStr
  simp only [Bool.and_eq_true] at h ⊢
  obtain ⟨h1, h2⟩ := h
  refine ⟨h1, ?_⟩
  rw [List.all_eq_true] at h2 ⊢
  intro c hc
  unfold pyIsDigitChar
  rw [h2 c hc, Bool.true_or]

theorem pyIntOfDecimal (s : String) (h : allDecimalStr s = true) :
    pyInt? s = some ((decValN s.data : Int)) := by
  unfold allDecimalStr at h
  simp only [Bool.and_eq_true] at h
  obtain ⟨h1, h2⟩ := h
  have hne : s.data ≠ [] := by
    intro hh
    rw [hh] at h1
    exact absurd h1 (by decide)
  have hall : ∀ c ∈ s.data, c.isDigit = true := List.all_eq_true.mp h2
  have hstrip : pyStrip s.data = s.data :=
    pyStrip_of_not_space s.data (fun c hc => not_space_of_digit c (hall c hc))
  obtain ⟨c, cs, hcs⟩ : ∃ c cs, s.data = c :: cs := by
    cases hd : s.data with
    | nil => exact absurd hd hne
    | cons c cs => exact ⟨c, cs, rfl⟩
  have hcd : c.isDigit = true := hall c (by rw [hcs]; exact List.mem_cons_self c cs)
  have hm : s.data.head? = some c := by rw [hcs]; rfl
  have hminus : ¬s.data.head? = some '-' := by
    rw [hm]
    intro hh
    have hch := Option.some.inj hh
    rw [hch] at hcd
    exact absurd hcd (by decide)
  have hplus : ¬s.data.head? = some '+' := by
    rw [hm]
    intro hh
    have hch := Option.some.inj hh
    rw [hch] at hcd
    exact absurd hcd (by decide)
  unfold pyInt?
  rw [hstrip, if_neg hne, if_neg hminus, if_neg hplus, if_pos h2]

theorem timestampToDate_decimal (fmt : Int → FtRes) (s : String) (h : allDecimalStr s = true) :
    timestampToDate fmt s =
      match fmt ((decValN s.data : Int)) with
      | FtRes.ok t => Except.ok t
      | FtRes.valueError => Except.ok s
      | FtRes.uncaught => Except.error PyErr.uncaught := by
  unfold timestampToDate
  rw [pyIntOfDecimal s h]

/-- The reading of the parser that claim C10 compares against: the same
per-line processing applied directly to the raw input split on newlines,
with no initial whole-input strip. -/
def specParseNoStrip (s : String) : List (String × String) :=
  (splitNl s.data).foldl insLine []

theorem parse_eq_entries (s : String) (hs : ¬s = "") :
    parseKeyValueContent (some s) =
      (lineEntries (splitNl (pyStrip s.data))).foldl (fun x kv => dinsert x kv.1 kv.2) [] := by
  rw [show parseKeyValueContent (some s) =
      if s = "" then [] else (splitNl (pyStrip s.data)).foldl insLine [] from rfl,
    if_neg hs]
  exact foldl_insLine_eq _ []

theorem parse_lookup_lastValue (s : String) (k : String) :
    dlookup (parseKeyValueContent (some s)) k =
      lastValue (lineEntries (splitNl s.data)) k := by
  by_cases hs : s = ""
  · subst hs; rfl
  · rw [parse_eq_entries s hs, dlookup_foldl_dinsert, lineEntries_pyStrip]
    cases lastValue (lineEntries (splitNl s.data)) k <;> rfl

theorem splitColon_of_no_colon (l : List Char) (h : ':' ∉ l) : splitColon l = none := by
  induction l with
  | nil => rfl
  | cons c cs ih =>
    have hc : ¬c = ':' := fun hh => h (hh ▸ List.mem_cons_self c cs)
    rw [splitColon_cons_ne c cs hc, ih (fun hm => h (List.mem_cons_of_mem c hm))]
    rfl

theorem splitColon_first (a b : List Char) (h : ':' ∉ a) :
    splitColon (a ++ ':' :: b) = some (a, b) := by
  induction a with
  | nil => simp [splitColon]
  | cons c cs ih =>
    have hc : ¬c = ':' := fun hh => h (hh ▸ List.mem_cons_self c cs)
    rw [List.cons_append, splitColon_cons_ne c _ hc,
      ih (fun hm => h (List.mem_cons_of_mem c hm))]
    rfl

theorem timeField_ne_readable (f g : String) (hf : f ∈ timeFields) (hg : g ∈ timeFields) :
    f ≠ g ++ "_readable" := by
  simp only [timeFields, List.mem_cons, List.not_mem_nil, or_false] at hf hg
  rcases hf with rfl | rfl | rfl | rfl <;> rcases hg with rfl | rfl | rfl | rfl <;> decide

/-- C9: the parser applied to a null input and the parser applied to the
empty string both return the empty mapping, without error. -/
theorem c9_empty_and_null_input :
    parseKeyValueContent none = [] ∧ parseKeyValueContent (some "") = [] :=
  ⟨rfl, rfl⟩

/-- C10: the parser's initial whole-input `strip()` is observationally
irrelevant — the mapping it produces equals the one produced by
`specParseNoStrip`, which applies the same per-line processing directly to
the un-stripped input split on newlines. -/
theorem c10_strip_irrelevant (s : String) :
    parseKeyValueContent (some s) = specParseNoStrip s := by
  by_cases hs : s = ""
  · subst hs; rfl
  · rw [parse_eq_entries s hs]
    unfold specParseNoStrip
    rw [foldl_insLine_eq, lineEntries_pyStrip]

/-- C5: a line without a colon contributes nothing; a line with a colon
contributes the entry whose key is the trimmed text before the first colon
and whose value is derived from all the text after the first colon (which may
itself contain colons); and the parser's lookup returns the value of the last
line producing the key (later lines overwrite earlier ones). -/
theorem c5_line_splitting (s k : String) (line a b : List Char) :
    (':' ∉ line → processLine line = none) ∧
    (':' ∉ a → processLine (a ++ ':' :: b) =
      some (String.mk (pyStrip a), String.mk (stripQuotes (pyStrip b)))) ∧
    (dlookup (parseKeyValueContent (some s)) k =
      lastValue (lineEntries (splitNl s.data)) k) := by
  refine ⟨?_, ?_, parse_lookup_lastValue s k⟩
  · intro h
    unfold processLine
    rw [splitColon_of_no_colon line h]
  · intro h
    unfold processLine
    rw [splitColon_first a b h]

/-- Witness for C5 at concrete inputs: a colon-less line yields no entry, a
line with colons in the value splits at the first colon only, and on
duplicate keys the last line wins. -/
theorem c5_witness :
    processLine ("nada".data) = none ∧
    processLine ("k".data ++ ':' :: " v:w".data) = some ("k", "v:w") ∧
    dlookup (parseKeyValueContent (some "a: 1\nb: c\na: 2")) "a" = some "2" :=
  ⟨(c5_line_splitting "" "" ("nada".data) [] []).1 (by decide),
    ((c5_line_splitting "" "" [] ("k".data) (" v:w".data)).2.1 (by decide)).trans (by decide),
    ((c5_line_splitting "a: 1\nb: c\na: 2" "a" [] [] []).2.2).trans (by decide)⟩

/-- C2 counterexample: the claim requires a minimum length of 2 before quote
stripping, leaving the single-character value consisting of one quote
unchanged; the source has no length check, so on the line `k: '` the single
quote both starts and ends the value and `value[1:-1]` yields the empty
string instead of the quote. -/
theorem c2_counterexample :
    parseKeyValueContent (some (String.mk ['k', ':', ' ', quoteChar])) = [("k", "")] ∧
    ("" : String) ≠ String.mk [quoteChar] := by
  constructor
  · decide
  · decide

/-- C2 (amended): after trimming, exactly one leading and one trailing quote
is removed iff the value starts AND ends with a single-quote character — with
no minimum-length requirement, so the single-character value consisting of
one quote becomes the empty string; a value that starts but does not end with
a quote (such as the two characters quote-x) is left unchanged. -/
theorem c2_quote_stripping (v : List Char) :
    (v.head? = some quoteChar → v.getLast? = some quoteChar → 2 ≤ v.length →
      stripQuotes v = (v.drop 1).dropLast ∧ (stripQuotes v).length + 2 = v.length) ∧
    (¬(v.head? = some quoteChar ∧ v.getLast? = some quoteChar) → stripQuotes v = v) ∧
    (stripQuotes [quoteChar] = []) ∧
    (dlookup (parseKeyValueContent (some (String.mk ['k', ':', ' ', quoteChar, 'x']))) "k" =
      some (String.mk [quoteChar, 'x'])) := by
  refine ⟨?_, ?_, by decide, by decide⟩
  · intro h1 h2 hlen
    unfold stripQuotes
    rw [if_pos ⟨h1, h2⟩]
    refine ⟨rfl, ?_⟩
    rw [List.length_dropLast, List.length_drop]
    omega
  · intro h
    unfold stripQuotes
    rw [if_neg h]

/-- Witness for C2 at a concrete quoted value of length 3: one quote is
removed from each end. -/
theorem c2_witness :
    stripQuotes [quoteChar, 'x', quoteChar] = ([quoteChar, 'x', quoteChar].drop 1).dropLast ∧
    (stripQuotes [quoteChar, 'x', quoteChar]).length + 2 = [quoteChar, 'x', quoteChar].length :=
  (c2_quote_stripping [quoteChar, 'x', quoteChar]).1 (by decide) (by decide) (by decide)

/-- C1 counterexample: the superscript-two character satisfies Python's
`isdigit` but is not a decimal digit, so under the claim no derived field may
be added; the code passes the guard, `int()` then fails, the failure is
caught, and `created_at_readable` is added holding the original string. -/
theorem c1_counterexample :
    convertTimestamps (fun _ => FtRes.ok "1970-01-01 00:00:00")
      (strD [("created_at", "²")]) =
      Except.ok [("created_at", Val.str "²"), ("created_at_readable", Val.str "²")] ∧
    "²".data.all Char.isDigit = false := by
  constructor
  · decide
  · decide

/-- C1 (amended): for each field of the fixed list, on a successful run the
enricher adds the derived key `<field>_readable` iff the field is present
with a value passing Python's `isdigit` (which also accepts digit-typed
non-decimal characters such as superscripts); the derived value is
`timestamp_to_date`'s result — the formatted local date-time when the value
is a run of decimal digits and the platform conversion succeeds, and the
original string unchanged when `int()` parsing fails; when the field is
absent or fails `isdigit`, the derived key's lookup is unchanged; and the
original field itself is never modified. -/
theorem c1_enricher_readable (fmt : Int → FtRes) (data : List (String × String))
    (f : String) (hf : f ∈ timeFields) (out : PyDict)
    (hout : convertTimestamps fmt (strD data) = Except.ok out) :
    (∀ s, dlookup data f = some s → pyIsDigitStr s = true →
      ∃ t, timestampToDate fmt s = Except.ok t ∧
        dlookup out (f ++ "_readable") = some (Val.str t)) ∧
    (∀ s ft, dlookup data f = some s → allDecimalStr s = true →
      fmt ((decValN s.data : Int)) = FtRes.ok ft →
      dlookup out (f ++ "_readable") = some (Val.str ft)) ∧
    (dlookup data f = none →
      dlookup out (f ++ "_readable") = dlookup (strD data) (f ++ "_readable")) ∧
    (∀ s, dlookup data f = some s → pyIsDigitStr s = false →
      dlookup out (f ++ "_readable") = dlookup (strD data) (f ++ "_readable")) ∧
    dlookup out f = (dlookup data f).map Val.str := by
  refine ⟨?_, ?_, ?_, ?_, ?_⟩
  · intro s hs hdig
    exact convert_hit fmt (strD data) out f s hf (by rw [dlookup_strD, hs]; rfl) hdig hout
  · intro s ft hs hdec hfmt
    obtain ⟨t, hts, hget⟩ := convert_hit fmt (strD data) out f s hf
      (by rw [dlookup_strD, hs]; rfl) (pyIsDigitStr_of_decimal s hdec) hout
    rw [timestampToDate_decimal fmt s hdec, hfmt] at hts
    injection hts with hh
    rw [hh]
    exact hget
  · intro hnone
    exact convert_miss fmt (strD data) out f hf (Or.inl (by rw [dlookup_strD, hnone]; rfl)) hout
  · intro s hs hdig
    exact convert_miss fmt (strD data) out f hf
      (Or.inr ⟨s, by rw [dlookup_strD, hs]; rfl, hdig⟩) hout
  · rw [convert_lookup_ne fmt (strD data) out hout f
      (fun g hg => timeField_ne_readable f g hf hg), dlookup_strD]

/-- Witness for C1: a decimal timestamp field is enriched with the formatted
date produced by the platform conversion. -/
theorem c1_witness :
    dlookup [("created_at", Val.str "0"),
        ("created_at_readable", Val.str "1970-01-01 08:00:00")]
      ("created_at" ++ "_readable") = some (Val.str "1970-01-01 08:00:00") :=
  (c1_enricher_readable (fun _ => FtRes.ok "1970-01-01 08:00:00")
    [("created_at", "0")] "created_at" (by decide)
    [("created_at", Val.str "0"), ("created_at_readable", Val.str "1970-01-01 08:00:00")]
    (by decide)).2.1 "0" "1970-01-01 08:00:00" (by decide) (by decide) rfl

/-- C3 counterexample: with the platform conversion raising `ValueError` for
an out-of-range epoch value, the enricher adds `created_at_readable` holding
the original string — the claim says no derived field is added; and with the
conversion raising an exception outside `(ValueError, TypeError)` (such as
`OverflowError`), the exception escapes the enricher — the claim says no
exception is raised. -/
theorem c3_counterexample :
    convertTimestamps (fun _ => FtRes.valueError)
      (strD [("created_at", "99999999999999")]) =
      Except.ok [("created_at", Val.str "99999999999999"),
        ("created_at_readable", Val.str "99999999999999")] ∧
    convertTimestamps (fun _ => FtRes.uncaught)
      (strD [("created_at", "99999999999999")]) = Except.error PyErr.uncaught := by
  constructor
  · decide
  · decide

/-- C3 (amended): for a decimal-digit time field whose conversion fails: if
`datetime.fromtimestamp` raises `ValueError` (or `TypeError`), the enricher
raises nothing and leaves the original field untouched but still adds the
derived field, holding the original string unchanged; if it raises anything
else (such as `OverflowError` for values not fitting the platform time type),
the exception propagates out of the enricher and is only absorbed by
`fetch_page`'s handler. -/
theorem c3_overflow_behaviour (fmt : Int → FtRes) (data : List (String × String))
    (f s : String) (hf : f ∈ timeFields)
    (honly : ∀ g, g ∈ timeFields → g ≠ f → dlookup data g = none)
    (hs : dlookup data f = some s) (hdec : allDecimalStr s = true) :
    (fmt ((decValN s.data : Int)) = FtRes.valueError →
      ∃ out, convertTimestamps fmt (strD data) = Except.ok out ∧
        dlookup out f = some (Val.str s) ∧
        dlookup out (f ++ "_readable") = some (Val.str s)) ∧
    (fmt ((decValN s.data : Int)) = FtRes.uncaught →
      convertTimestamps fmt (strD data) = Except.error PyErr.uncaught) := by
  have hdig := pyIsDigitStr_of_decimal s hdec
  have hlook : dlookup (strD data) f = some (Val.str s) := by rw [dlookup_strD, hs]; rfl
  have hmiss : ∀ g, g ∈ timeFields → g ≠ f → dlookup (strD data) g = none := by
    intro g hg hne
    rw [dlookup_strD, honly g hg hne]
    rfl
  have hmiss2 : ∀ g, g ∈ timeFields → g ≠ f →
      dlookup (dinsert (strD data) (f ++ "_readable") (Val.str s)) g = none := by
    intro g hg hne
    rw [dlookup_dinsert_ne _ _ _ _ (timeField_ne_readable g f hg hf)]
    exact hmiss g hg hne
  constructor
  · intro hfmt
    have hts : timestampToDate fmt s = Except.ok s := by
      rw [timestampToDate_decimal fmt s hdec, hfmt]
    have hstepf : ∀ d, dlookup d f = some (Val.str s) →
        stepField fmt d f = Except.ok (dinsert d (f ++ "_readable") (Val.str s)) := by
      intro d hd
      unfold stepField
      rw [hd]
      simp [hdig, hts]
    refine ⟨dinsert (strD data) (f ++ "_readable") (Val.str s), ?_, ?_, ?_⟩
    · simp only [timeFields, List.mem_cons, List.not_mem_nil, or_false] at hf
      rcases hf with rfl | rfl | rfl | rfl
      · have s1 := hstepf _ hlook
        have s2 := stepField_miss_none fmt _ "date-to"
          (hmiss2 "date-to" (by simp [timeFields]) (by decide))
        have s3 := stepField_miss_none fmt _ "created_at"
          (hmiss2 "created_at" (by simp [timeFields]) (by decide))
        have s4 := stepField_miss_none fmt _ "updated_at"
          (hmiss2 "updated_at" (by simp [timeFields]) (by decide))
        unfold convertTimestamps
        simp only [s1, s2, s3, s4]
      · have s1 := stepField_miss_none fmt _ "date-from"
          (hmiss "date-from" (by simp [timeFields]) (by decide))
        have s2 := hstepf _ hlook
        have s3 := stepField_miss_none fmt _ "created_at"
          (hmiss2 "created_at" (by simp [timeFields]) (by decide))
        have s4 := stepField_miss_none fmt _ "updated_at"
          (hmiss2 "updated_at" (by simp [timeFields]) (by decide))
        unfold convertTimestamps
        simp only [s1, s2, s3, s4]
      · have s1 := stepField_miss_none fmt _ "date-from"
          (hmiss "date-from" (by simp [timeFields]) (by decide))
        have s2 := stepField_miss_none fmt _ "date-to"
          (hmiss "date-to" (by simp [timeFields]) (by decide))
        have s3 := hstepf _ hlook
        have s4 := stepField_miss_none fmt _ "updated_at"
          (hmiss2 "updated_at" (by simp [timeFields]) (by decide))
        unfold convertTimestamps
        simp only [s1, s2, s3, s4]
      · have s1 := stepField_miss_none fmt _ "date-from"
          (hmiss "date-from" (by simp [timeFields]) (by decide))
        have s2 := stepField_miss_none fmt _ "date-to"
          (hmiss "date-to" (by simp [timeFields]) (by decide))
        have s3 := stepField_miss_none fmt _ "created_at"
          (hmiss "created_at" (by simp [timeFields]) (by decide))
        have s4 := hstepf _ hlook
        unfold convertTimestamps
        simp only [s1, s2, s3, s4]
    · rw [dlookup_dinsert_ne _ _ _ _ (timeField_ne_readable f f hf hf)]
      exact hlook
    · rw [dlookup_dinsert_self]
  · intro hfmt
    have hts : timestampToDate fmt s = Except.error PyErr.uncaught := by
      rw [timestampToDate_decimal fmt s hdec, hfmt]
    have hstepf : ∀ d, dlookup d f = some (Val.str s) →
        stepField fmt d f = Except.error PyErr.uncaught := by
      intro d hd
      exact stepField_err fmt d f s PyErr.uncaught hd hdig hts
    simp only [timeFields, List.mem_cons, List.not_mem_nil, or_false] at hf
    rcases hf with rfl | rfl | rfl | rfl
    · have s1 := hstepf _ hlook
      unfold convertTimestamps
      simp only [s1]
    · have s1 := stepField_miss_none fmt _ "date-from"
        (hmiss "date-from" (by simp [timeFields]) (by decide))
      have s2 := hstepf _ hlook
      unfold convertTimestamps
      simp only [s1, s2]
    · have s1 := stepField_miss_none fmt _ "date-from"
        (hmiss "date-from" (by simp [timeFields]) (by decide))
      have s2 := stepField_miss_none fmt _ "date-to"
        (hmiss "date-to" (by simp [timeFields]) (by decide))
      have s3 := hstepf _ hlook
      unfold convertTimestamps
      simp only [s1, s2, s3]
    · have s1 := stepField_miss_none fmt _ "date-from"
        (hmiss "date-from" (by simp [timeFields]) (by decide))
      have s2 := stepField_miss_none fmt _ "date-to"
        (hmiss "date-to" (by simp [timeFields]) (by decide))
      have s3 := stepField_miss_none fmt _ "created_at"
        (hmiss "created_at" (by simp [timeFields]) (by decide))
      have s4 := hstepf _ hlook
      unfold convertTimestamps
      simp only [s1, s2, s3, s4]

/-- Witness for C3: with a conversion oracle that raises `ValueError`, the
out-of-range timestamp field keeps its original value and the derived field
is added holding the same original string. -/
theorem c3_witness :
    ∃ out, convertTimestamps (fun _ => FtRes.valueError)
        (strD [("created_at", "99999999999999")]) = Except.ok out ∧
      dlookup out "created_at" = some (Val.str "99999999999999") ∧
      dlookup out ("created_at" ++ "_readable") = some (Val.str "99999999999999") :=
  (c3_overflow_behaviour (fun _ => FtRes.valueError) [("created_at", "99999999999999")]
    "created_at" "99999999999999" (by decide)
    (by
      intro g hg hne
      simp only [timeFields, List.mem_cons, List.not_mem_nil, or_false] at hg
      rcases hg with rfl | rfl | rfl | rfl
      · decide
      · decide
      · exact absurd rfl hne
      · decide)
    (by decide) (by decide)).1 rfl

/-- C4 counterexample: on an input that already contains the derived key
`created_at_readable`, the enricher overwrites that key's value (so an input
key is not kept with the same value) and the output's key set equals the
input's (so the output is not a strict superset). -/
theorem c4_counterexample :
    convertTimestamps (fun _ => FtRes.ok "x")
      (strD [("created_at", "²"), ("created_at_readable", "x")]) =
      Except.ok [("created_at", Val.str "²"), ("created_at_readable", Val.str "²")] ∧
    dlookup (strD [("created_at", "²"), ("created_at_readable", "x")]) "created_at_readable" =
      some (Val.str "x") ∧
    ("x" : String) ≠ "²" := by
  refine ⟨by decide, by decide, by decide⟩

/-- C4 (amended): the enricher (a pure function in the model) never removes
keys — every key of the input is present in the output — and every key other
than the four derived `<field>_readable` keys retains its exact value; the
derived keys may be overwritten when the corresponding field qualifies, and
when no field qualifies the output equals the input, so the superset is not
strict in general. -/
theorem c4_superset (fmt : Int → FtRes) (data : List (String × String)) (out : PyDict)
    (hout : convertTimestamps fmt (strD data) = Except.ok out) :
    (∀ g, g ∉ readableKeys → dlookup out g = dlookup (strD data) g) ∧
    (∀ g, (dlookup (strD data) g).isSome → (dlookup out g).isSome) := by
  constructor
  · intro g hg
    refine convert_lookup_ne fmt (strD data) out hout g ?_
    intro f hfm hh
    exact hg (by rw [hh]; exact List.mem_map_of_mem _ hfm)
  · intro g
    exact convert_keys_mono fmt (strD data) out hout g

/-- Witness for C4: a mapping with no time fields passes through unchanged;
its key is preserved with its value. -/
theorem c4_witness :
    dlookup [("k", Val.str "v")] "k" = dlookup (strD [("k", "v")]) "k" ∧
    (dlookup [("k", Val.str "v")] "k").isSome :=
  ⟨(c4_superset (fun _ => FtRes.ok "") [("k", "v")] [("k", Val.str "v")] (by decide)).1
      "k" (by decide),
    (c4_superset (fun _ => FtRes.ok "") [("k", "v")] [("k", Val.str "v")] (by decide)).2
      "k" (by decide)⟩

/-- C6: `fetch_page` never propagates an exception to its caller: when the
body of its `try` raises (page retrieval, attribute access, any library
failure), when no site is available and login fails (including by an
exception during login, which `login` itself absorbs into a `False` return),
or when the page's content is missing or the empty string, the call returns
the no-result value `none`. -/
theorem c6_no_exception_escape (o : SiteOracle) (fmt : Int → FtRes) (hs : Bool)
    (name : String)
    (h : (∃ e, fetchPageTry o fmt name = Except.error e) ∨
      (hs = false ∧ (loginRun o).ret = false) ∨
      (∃ p src, o.getPage ("reserve:" ++ name) = Except.ok p ∧ p.source = Except.ok src ∧
        (src.wiki_text = none ∨ src.wiki_text = some ""))) :
    fetchPage o fmt hs name = none := by
  rcases h with ⟨e, he⟩ | ⟨h1, h2⟩ | ⟨p, src, hp, hsrc, hwt⟩
  · unfold fetchPage
    by_cases hc : (hs || (loginRun o).ret) = true
    · rw [if_pos hc]
      simp only [he]
    · rw [if_neg hc]
  · unfold fetchPage
    simp [h1, h2]
  · have htry : fetchPageTry o fmt name = Except.ok none := by
      unfold fetchPageTry
      simp only [hp, hsrc]
      rcases hwt with hwt | hwt <;> simp [hwt]
    unfold fetchPage
    by_cases hc : (hs || (loginRun o).ret) = true
    · rw [if_pos hc]
      simp only [htry]
    · rw [if_neg hc]

/-- Witness for C6: a site client whose page retrieval raises is absorbed
into a `none` result. -/
theorem c6_witness :
    fetchPage ⟨Except.ok (), Except.ok (), fun _ => Except.error PyErr.generic⟩
      (fun _ => FtRes.valueError) true "p" = none :=
  c6_no_exception_escape _ _ true "p" (Or.inl ⟨PyErr.generic, rfl⟩)

/-- C7: on every successful fetch, the returned mapping's `_page_info` entry
is the page-metadata record, never a content line's value — the metadata is
inserted after all content lines are parsed, so its write happens last. -/
theorem c7_page_info_wins (o : SiteOracle) (fmt : Int → FtRes) (hs : Bool) (name : String)
    (out : PyDict) (p : PageObj) (info : PageInfo)
    (hp : o.getPage ("reserve:" ++ name) = Except.ok p)
    (hm : p.meta = Except.ok info)
    (hout : fetchPage o fmt hs name = some out) :
    dlookup out "_page_info" = some (Val.info info) := by
  unfold fetchPage at hout
  by_cases hc : (hs || (loginRun o).ret) = true
  case neg =>
    rw [if_neg hc] at hout
    cases hout
  case pos =>
  rw [if_pos hc] at hout
  cases htry : fetchPageTry o fmt name with
  | error e =>
    simp only [htry] at hout
    cases hout
  | ok r =>
    simp only [htry] at hout
    unfold fetchPageTry at htry
    simp only [hp] at htry
    cases hsrc : p.source with
    | error e =>
      simp only [hsrc] at htry
      cases htry
    | ok src =>
      simp only [hsrc] at htry
      cases hwt : src.wiki_text with
      | none =>
        simp only [hwt] at htry
        injection htry with hh
        rw [← hh] at hout
        cases hout
      | some raw =>
        simp only [hwt] at htry
        by_cases hraw : raw = ""
        · rw [if_pos hraw] at htry
          injection htry with hh
          rw [← hh] at hout
          cases hout
        · rw [if_neg hraw] at htry
          simp only [hm] at htry
          cases hconv : convertTimestamps fmt
              (dinsert (strD (parseKeyValueContent (some raw)))
                "_page_info" (Val.info info)) with
          | error e =>
            simp only [hconv] at htry
            cases htry
          | ok finalData =>
            simp only [hconv] at htry
            injection htry with hh
            rw [← hh] at hout
            injection hout with hh2
            subst hh2
            rw [convert_lookup_ne fmt _ _ hconv "_page_info" ?_, dlookup_dinsert_self]
            intro g hg
            simp only [timeFields, List.mem_cons, List.not_mem_nil, or_false] at hg
            rcases hg with rfl | rfl | rfl | rfl <;> decide

/-- Concrete page metadata used by the C7 witness. -/
def infoW : PageInfo :=
  ⟨"reserve:rpc-055", "rpc-055", "RPC-055", "scp", some "2021-01-01T00:00:00",
    some "alice", 1234⟩

/-- Concrete page whose raw text contains a content line using the reserved
`_page_info` key. -/
def pageW : PageObj :=
  ⟨Except.ok ⟨some "x: 1\n_page_info: sneaky"⟩, Except.ok infoW⟩

/-- Concrete site client delivering `pageW`. -/
def oracleW : SiteOracle := ⟨Except.ok (), Except.ok (), fun _ => Except.ok pageW⟩

/-- Witness for C7: even though a content line writes the reserved key, the
returned mapping holds the metadata record there. -/
theorem c7_witness :
    dlookup [("x", Val.str "1"), ("_page_info", Val.info infoW)] "_page_info" =
      some (Val.info infoW) :=
  c7_page_info_wins oracleW (fun _ => FtRes.ok "") true "p"
    [("x", Val.str "1"), ("_page_info", Val.info infoW)] pageW infoW rfl rfl (by decide)

/-- C8 (code bug): in the scope where `wikidot.Client(...)` succeeds but the
site lookup raises during `login`, the `except` handler discards the session
(`self.client = None`) without calling `close()`, and `__exit__` then closes
nothing: the scope's resource trace records a created session and no close
event, violating the claim's (and the spec's) guaranteed-cleanup
requirement. -/
theorem c8_session_leak :
    scopeRun ⟨Except.ok (), Except.error PyErr.generic, fun _ => Except.error PyErr.generic⟩ =
      [REvent.created] ∧
    REvent.closed ∉
      scopeRun ⟨Except.ok (), Except.error PyErr.generic,
        fun _ => Except.error PyErr.generic⟩ := by
  constructor
  · decide
  · decide
